import Mathlib

/-!
Verification of `predb_indexer.py` (SphinxUpdater): a MySQL-binlog to
Sphinx-RT-index synchronizer.  The pipeline consumes row-level change
events for the `releases` table and translates each one into at most one
index mutation (REPLACE or DELETE against `releases_rt`).

We shallow-embed the Python program: row snapshots are association lists
from column names to Python values; `dict[k]` is a fallible lookup
(`Except` models the `KeyError`), `dict.get(k, d)` is a total lookup with
default; Python truthiness and the `x or d` idiom are modelled on the
value type; the per-row `try/except` of the main loop is modelled by a
step function that leaves the store unchanged when translation fails.
-/

set_option autoImplicit false

namespace SphinxUpdater

/-- A Python value as it appears in a binlog row snapshot: `None` (SQL
NULL), an integer, a float (modelled by a rational; no arithmetic is ever
performed on it), or a string. -/
inductive PyVal where
  | null
  | int (n : Int)
  | float (q : Rat)
  | str (s : String)
deriving DecidableEq

/-- Python truthiness: `None`, `0`, `0.0` and `""` are falsy. -/
def PyVal.truthy : PyVal → Bool
  | .null => false
  | .int n => decide (n ≠ 0)
  | .float q => decide (q ≠ 0)
  | .str s => decide (s ≠ "")

/-- The Python `x or y` idiom (used in `add_release_to_sphinx` to default
missing/NULL/zero fields). -/
def pyOr (x y : PyVal) : PyVal := if x.truthy then x else y

/-- Python `v == m` against an integer literal: `None == m` and
`"s" == m` are `False`; a float compares numerically. -/
def PyVal.eqInt : PyVal → Int → Bool
  | .int n, m => decide (n = m)
  | .float q, m => decide (q = (m : Rat))
  | _, _ => false

/-- Python `v < m` against an integer literal; comparing `None` or a
string with an integer raises a `TypeError`, modelled by `Option.none`. -/
def PyVal.ltInt : PyVal → Int → Option Bool
  | .int n, m => some (decide (n < m))
  | .float q, m => some (decide (q < (m : Rat)))
  | _, _ => Option.none

/-- A row snapshot: mapping from column name to value (first match wins,
as in a Python dict which has unique keys). -/
abbrev Row := List (String × PyVal)

/-- `dict.get(k)` / `dict.get(k, default)` backbone: first value bound to
the key, if any. -/
def rowGet? : Row → String → Option PyVal
  | [], _ => Option.none
  | (k, v) :: rest, key => if k = key then some v else rowGet? rest key

/-- `dict.get(key, d)`. -/
def rowGetD (r : Row) (key : String) (d : PyVal) : PyVal :=
  (rowGet? r key).getD d

/-- `dict[key]`: raises `KeyError` when the key is absent. -/
def getItem (r : Row) (key : String) : Except String PyVal :=
  match rowGet? r key with
  | some v => Except.ok v
  | Option.none => Except.error ("KeyError: " ++ key)

instance {ε α : Type} [DecidableEq ε] [DecidableEq α] :
    DecidableEq (Except ε α) := fun a b =>
  match a, b with
  | .ok x, .ok y =>
      if h : x = y then isTrue (by rw [h]) else isFalse (by simp [h])
  | .error x, .error y =>
      if h : x = y then isTrue (by rw [h]) else isFalse (by simp [h])
  | .ok _, .error _ => isFalse (by simp)
  | .error _, .ok _ => isFalse (by simp)

/-- The replay-skip threshold hard-coded in the source
(`last_known_insert`). -/
def last_known_insert : Int := 14130526

/-- An index mutation issued to Sphinx: `REPLACE INTO releases_rt VALUES
(9 params)` or `DELETE FROM releases_rt WHERE id = key`. -/
inductive Mutation where
  | replace (params : List PyVal)
  | del (key : PyVal)
deriving DecidableEq

/-- The parameter tuple built by `add_release_to_sphinx` (lines 80-90):
`(id, name, name, groupid or 0, sectionid or 0, status or 0, pretime or
0, size or 0.0, files or 0)`; `release_data['id']` is a direct access. -/
def addReleaseParams (d : Row) : Except String (List PyVal) := do
  let i ← getItem d "id"
  Except.ok
    [ i,
      rowGetD d "releasename" (.str ""),
      rowGetD d "releasename" (.str ""),
      pyOr (rowGetD d "groupid" .null) (.int 0),
      pyOr (rowGetD d "sectionid" .null) (.int 0),
      pyOr (rowGetD d "status" .null) (.int 0),
      pyOr (rowGetD d "pretime" .null) (.int 0),
      pyOr (rowGetD d "size" .null) (.float 0),
      pyOr (rowGetD d "files" .null) (.int 0) ]

/-- `add_release_to_sphinx` (lines 75-95): issues one REPLACE mutation
with the parameter tuple. -/
def add_release_to_sphinx (d : Row) : Except String Mutation := do
  let ps ← addReleaseParams d
  Except.ok (.replace ps)

/-- `remove_release_from_sphinx` (lines 97-103): one DELETE mutation. -/
def remove_release_from_sphinx (release_id : PyVal) : Mutation :=
  .del release_id

/-- The `release_data` dict literal built in `main` (lines 139-148 and
the identical update-branch literals), once the two direct accesses have
produced the `id` and `releasename` values; the remaining fields use
`.get` with defaults `0` / `0.0`. -/
def releaseDataDict (values : Row) (i rn : PyVal) : Row :=
  [ ("id", i),
    ("releasename", rn),
    ("groupid", rowGetD values "groupid" (.int 0)),
    ("sectionid", rowGetD values "sectionid" (.int 0)),
    ("status", rowGetD values "status" (.int 0)),
    ("pretime", rowGetD values "pretime" (.int 0)),
    ("files", rowGetD values "files" (.int 0)),
    ("size", rowGetD values "size" (.float 0)) ]

/-- Building `release_data` from a row snapshot: `id` and `releasename`
are direct (`KeyError`-raising) accesses. -/
def buildReleaseData (values : Row) : Except String Row := do
  let i ← getItem values "id"
  let rn ← getItem values "releasename"
  Except.ok (releaseDataDict values i rn)

/-- `main`'s Delete branch (lines 123-125): `row["values"]['id']`, then
an unconditional delete. -/
def processDeleteRow (values : Row) : Except String (Option Mutation) := do
  let release_id ← getItem values "id"
  Except.ok (some (remove_release_from_sphinx release_id))

/-- `main`'s Insert branch (lines 127-150): skip when `id <
last_known_insert`, skip when `status == 4` (missing status read as 0),
otherwise build the release dict and REPLACE. -/
def processWriteRow (threshold : Int) (values : Row) :
    Except String (Option Mutation) := do
  let i ← getItem values "id"
  let lt ← match i.ltInt threshold with
    | some b => Except.ok b
    | Option.none => Except.error "TypeError: unorderable"
  if lt then
    Except.ok Option.none
  else if (rowGetD values "status" (.int 0)).eqInt 4 then
    Except.ok Option.none
  else do
    let rd ← buildReleaseData values
    let m ← add_release_to_sphinx rd
    Except.ok (some m)

/-- `main`'s Update branch (lines 152-187): dispatch on
`before_values.get('status')` / `after_values.get('status')` (no default,
so a missing column reads as `None`; the last guard uses default `0`). -/
def processUpdateRow (before_values after_values : Row) :
    Except String (Option Mutation) :=
  let bs := rowGetD before_values "status" .null
  let as' := rowGetD after_values "status" .null
  if as'.eqInt 4 && !(bs.eqInt 4) then do
    let i ← getItem after_values "id"
    Except.ok (some (remove_release_from_sphinx i))
  else if bs.eqInt 4 && !(as'.eqInt 4) then do
    let rd ← buildReleaseData after_values
    let m ← add_release_to_sphinx rd
    Except.ok (some m)
  else if !((rowGetD after_values "status" (.int 0)).eqInt 4) then do
    let rd ← buildReleaseData after_values
    let m ← add_release_to_sphinx rd
    Except.ok (some m)
  else
    Except.ok Option.none

/-- A binlog event as delivered by the stream reader: table name plus the
rows payload (`values` for Delete/Write, `before_values`/`after_values`
pairs for Update). -/
inductive BinlogEvent where
  | deleteRows (table : String) (rows : List Row)
  | writeRows (table : String) (rows : List Row)
  | updateRows (table : String) (rows : List (Row × Row))
deriving DecidableEq

def BinlogEvent.table : BinlogEvent → String
  | .deleteRows t _ => t
  | .writeRows t _ => t
  | .updateRows t _ => t

/-- The translation outcome of each row of an event, in order. -/
def eventRowResults (threshold : Int) :
    BinlogEvent → List (Except String (Option Mutation))
  | .deleteRows _ rows => rows.map processDeleteRow
  | .writeRows _ rows => rows.map (processWriteRow threshold)
  | .updateRows _ rows => rows.map (fun p => processUpdateRow p.1 p.2)

/-- The index store, modelled as a map from document key (the `id`
attribute) to the stored parameter tuple. -/
abbrev Store := PyVal → Option (List PyVal)

def emptyStore : Store := fun _ => Option.none

/-- Store-level semantics of the two writer primitives: REPLACE is
replace-by-key (the key is the first parameter, the `id` column of
`releases_rt`); DELETE removes the key if present. -/
def applyMutation (s : Store) : Mutation → Store
  | .replace ps => fun k => if k = ps.headD .null then some ps else s k
  | .del key => fun k => if k = key then Option.none else s k

/-- One iteration of the per-row loop body under its `try/except` (lines
121-193): a translation error is caught and logged and the store is left
unchanged; a successful translation applies its mutation (if any). -/
def processRowStep (s : Store) : Except String (Option Mutation) → Store
  | .error _ => s
  | .ok Option.none => s
  | .ok (some m) => applyMutation s m

/-- Processing one binlog event: events for tables other than `releases`
are filtered out (line 118); otherwise each row is translated and
applied in order. -/
def processEvent (threshold : Int) (s : Store) (e : BinlogEvent) : Store :=
  if e.table = "releases" then
    (eventRowResults threshold e).foldl processRowStep s
  else s

/-- Processing a whole event sequence, in stream order. -/
def processEvents (threshold : Int) (s : Store) (es : List BinlogEvent) :
    Store :=
  es.foldl (processEvent threshold) s

/-- `execute_sphinx_command` (lines 63-73): the store-level execution
outcome (success, or an exception from the driver) is converted to a
boolean: `True` on success, and on any exception the error is logged and
`False` is returned — nothing is re-raised. -/
def execute_sphinx_command (outcome : Except String Unit) : Bool :=
  match outcome with
  | .ok _ => true
  | .error _ => false

/-- Python `dict(rows)` for a list of key/value pairs: later duplicates
overwrite earlier bindings; insertion order is kept. -/
def dictInsert (d : List (Int × String)) (kv : Int × String) :
    List (Int × String) :=
  if d.any (fun p => p.1 = kv.1) then
    d.map (fun p => if p.1 = kv.1 then (p.1, kv.2) else p)
  else d ++ [kv]

def dictOf (rows : List (Int × String)) : List (Int × String) :=
  rows.foldl dictInsert []

/-- `fetch_all_groups` (lines 197-224), modelled on the fetched result
set: fewer than 1000 rows is treated as a load failure and the `groups`
mapping is left empty (it stays at its initial `{}`); otherwise the
mapping is `dict(rows)`. -/
def fetch_all_groups (rows : List (Int × String)) : List (Int × String) :=
  if rows.length < 1000 then [] else dictOf rows

/-- `fetch_all_sections` (lines 226-253): minimum row count 40. -/
def fetch_all_sections (rows : List (Int × String)) : List (Int × String) :=
  if rows.length < 40 then [] else dictOf rows

/-- Result of the startup sequencer: the two cached mappings and whether
the binlog consume loop (`main`) was entered. -/
structure StartupResult where
  groups : List (Int × String)
  sections : List (Int × String)
  enteredMain : Bool
deriving DecidableEq

/-- `startup` (lines 269-290), modelled on the reachability-probe
outcome and the two fetched result sets: abort if the Sphinx probe
fails; load both caches; abort if either mapping is empty
(`if not groups or not sections`); otherwise enter the consume loop. -/
def startup (probeOk : Bool) (groupRows sectionRows : List (Int × String)) :
    StartupResult :=
  if !probeOk then ⟨[], [], false⟩
  else
    let g := fetch_all_groups groupRows
    let s := fetch_all_sections sectionRows
    if g.isEmpty || s.isEmpty then ⟨g, s, false⟩
    else ⟨g, s, true⟩

/-- The parameter tuple that reaches Sphinx when `release_data` is built
from a snapshot whose `id` is `i` and whose `releasename` is `rn`: the
composition of `releaseDataDict` with `addReleaseParams`. -/
def upsertParamsOf (values : Row) (i rn : PyVal) : List PyVal :=
  [ i, rn, rn,
    pyOr (rowGetD values "groupid" (.int 0)) (.int 0),
    pyOr (rowGetD values "sectionid" (.int 0)) (.int 0),
    pyOr (rowGetD values "status" (.int 0)) (.int 0),
    pyOr (rowGetD values "pretime" (.int 0)) (.int 0),
    pyOr (rowGetD values "size" (.float 0)) (.float 0),
    pyOr (rowGetD values "files" (.int 0)) (.int 0) ]

/-! ## Helper lemmas -/

theorem except_bind_ok {α β : Type} (a : α) (f : α → Except String β) :
    (Except.ok a >>= f : Except String β) = f a := rfl

theorem except_bind_error {α β : Type} (msg : String)
    (f : α → Except String β) :
    (Except.error msg >>= f : Except String β) = Except.error msg := rfl

theorem getItem_of_get? (r : Row) (key : String) (v : PyVal)
    (h : rowGet? r key = some v) : getItem r key = Except.ok v := by
  simp [getItem, h]

theorem getItem_of_absent (r : Row) (key : String)
    (h : rowGet? r key = Option.none) :
    getItem r key = Except.error ("KeyError: " ++ key) := by
  simp [getItem, h]

/-- Whether a status value equals 4 does not depend on whether a missing
column defaults to `None` (branches 1-2 of the Update dispatch) or to
`0` (branch 3): `None == 4` and `0 == 4` are both `False`. -/
theorem eqInt4_default_irrel (o : Option PyVal) :
    (o.getD PyVal.null).eqInt 4 = (o.getD (PyVal.int 0)).eqInt 4 := by
  cases o <;> rfl

theorem buildReleaseData_ok (values : Row) (i rn : PyVal)
    (hi : rowGet? values "id" = some i)
    (hrn : rowGet? values "releasename" = some rn) :
    buildReleaseData values = Except.ok (releaseDataDict values i rn) := by
  simp [buildReleaseData, getItem_of_get? _ _ _ hi, getItem_of_get? _ _ _ hrn,
    except_bind_ok]

theorem add_release_releaseDataDict (values : Row) (i rn : PyVal) :
    add_release_to_sphinx (releaseDataDict values i rn) =
      Except.ok (.replace (upsertParamsOf values i rn)) := by
  simp [add_release_to_sphinx, addReleaseParams, getItem, rowGet?, rowGetD,
    releaseDataDict, upsertParamsOf, except_bind_ok]

/-- The composed upsert path of the Insert and Update branches. -/
theorem upsert_path (values : Row) (i rn : PyVal)
    (hi : rowGet? values "id" = some i)
    (hrn : rowGet? values "releasename" = some rn) :
    (do
      let rd ← buildReleaseData values
      let m ← add_release_to_sphinx rd
      Except.ok (some m) : Except String (Option Mutation)) =
      Except.ok (some (.replace (upsertParamsOf values i rn))) := by
  rw [buildReleaseData_ok values i rn hi hrn, except_bind_ok,
    add_release_releaseDataDict, except_bind_ok]

/-- The upsert path fails with a `KeyError` when the snapshot lacks the
`releasename` column (the dict literal accesses it directly). -/
theorem upsert_path_no_name (values : Row) (i : PyVal)
    (hi : rowGet? values "id" = some i)
    (hrn : rowGet? values "releasename" = Option.none) :
    (do
      let rd ← buildReleaseData values
      let m ← add_release_to_sphinx rd
      Except.ok (some m) : Except String (Option Mutation)) =
      Except.error "KeyError: releasename" := by
  have hb : buildReleaseData values = Except.error "KeyError: releasename" := by
    simp [buildReleaseData, getItem_of_get? _ _ _ hi,
      getItem_of_absent _ _ hrn, except_bind_ok, except_bind_error]
  rw [hb, except_bind_error]

/-- An Insert row that passes the threshold and status gates reaches the
record-build-and-upsert step. -/
theorem processWriteRow_build (t : Int) (values : Row) (k : Int)
    (hi : rowGet? values "id" = some (.int k)) (hk : ¬ k < t)
    (hs : ((rowGet? values "status").getD (.int 0)).eqInt 4 = false) :
    processWriteRow t values =
      (do
        let rd ← buildReleaseData values
        let m ← add_release_to_sphinx rd
        Except.ok (some m)) := by
  have hk' : decide (k < t) = false := by simpa using hk
  simp only [processWriteRow, getItem_of_get? _ _ _ hi, except_bind_ok,
    PyVal.ltInt, hk', rowGetD, hs, Bool.false_eq_true, reduceIte]

theorem processWriteRow_upsert (t : Int) (values : Row) (k : Int)
    (rn : PyVal) (hi : rowGet? values "id" = some (.int k)) (hk : ¬ k < t)
    (hs : ((rowGet? values "status").getD (.int 0)).eqInt 4 = false)
    (hrn : rowGet? values "releasename" = some rn) :
    processWriteRow t values =
      Except.ok (some (.replace (upsertParamsOf values (.int k) rn))) :=
  (processWriteRow_build t values k hi hk hs).trans
    (upsert_path values (.int k) rn hi hrn)

/-- An Update row whose `after.status` is not 4 reaches the
record-build-and-upsert step (through branch 2 or branch 3, which have
identical bodies). -/
theorem processUpdateRow_build (before_values after_values : Row)
    (hs : ((rowGet? after_values "status").getD (.int 0)).eqInt 4 = false) :
    processUpdateRow before_values after_values =
      (do
        let rd ← buildReleaseData after_values
        let m ← add_release_to_sphinx rd
        Except.ok (some m)) := by
  have ha := eqInt4_default_irrel (rowGet? after_values "status")
  by_cases hbs :
      ((rowGet? before_values "status").getD PyVal.null).eqInt 4 = true
  · simp only [processUpdateRow, rowGetD, ha, hs, hbs, Bool.false_and,
      Bool.and_true, Bool.not_false, Bool.false_eq_true, reduceIte, if_true]
  · have hbs' : ((rowGet? before_values "status").getD PyVal.null).eqInt 4 =
        false := by simpa using hbs
    simp only [processUpdateRow, rowGetD, ha, hs, hbs', Bool.false_and,
      Bool.and_true, Bool.not_false, Bool.false_eq_true, reduceIte, if_true]

/-- A translation error on one row leaves the store unchanged and the
loop moves on. -/
theorem processRowStep_error (s : Store) (msg : String) :
    processRowStep s (Except.error msg) = s := rfl

theorem dictInsert_ne_nil (d : List (Int × String)) (kv : Int × String) :
    dictInsert d kv ≠ [] := by
  unfold dictInsert
  split
  · intro hm
    have hd : d = [] := List.map_eq_nil_iff.mp hm
    subst hd
    simp_all
  · simp

theorem foldl_dictInsert_ne_nil (l : List (Int × String))
    (acc : List (Int × String)) (h : acc ≠ []) :
    l.foldl dictInsert acc ≠ [] := by
  induction l generalizing acc with
  | nil => exact h
  | cons x xs ih => exact ih (dictInsert acc x) (dictInsert_ne_nil acc x)

theorem dictOf_ne_nil (rows : List (Int × String)) (h : rows ≠ []) :
    dictOf rows ≠ [] := by
  cases rows with
  | nil => exact absurd rfl h
  | cons x xs =>
    simp only [dictOf, List.foldl]
    exact foldl_dictInsert_ne_nil xs (dictInsert [] x) (dictInsert_ne_nil [] x)

theorem fetch_all_groups_ne_nil (rows : List (Int × String))
    (h : ¬ rows.length < 1000) : fetch_all_groups rows ≠ [] := by
  unfold fetch_all_groups
  rw [if_neg h]
  refine dictOf_ne_nil rows ?_
  intro hr
  subst hr
  simp at h

theorem fetch_all_sections_ne_nil (rows : List (Int × String))
    (h : ¬ rows.length < 40) : fetch_all_sections rows ≠ [] := by
  unfold fetch_all_sections
  rw [if_neg h]
  refine dictOf_ne_nil rows ?_
  intro hr
  subst hr
  simp at h

theorem ne_nil_isEmpty_false (l : List (Int × String)) (h : l ≠ []) :
    l.isEmpty = false := by
  cases l with
  | nil => exact absurd rfl h
  | cons x xs => rfl

/-- `startup` with a successful probe, with the lets and the probe
conditional unfolded. -/
theorem startup_true (gr sr : List (Int × String)) :
    startup true gr sr =
      if (fetch_all_groups gr).isEmpty || (fetch_all_sections sr).isEmpty
      then ⟨fetch_all_groups gr, fetch_all_sections sr, false⟩
      else ⟨fetch_all_groups gr, fetch_all_sections sr, true⟩ := rfl

/-! ## Claims -/

/-- C1: for every Update event on the monitored table, exactly one of
four outcomes occurs, determined solely by `(before.status,
after.status)` with a missing status read as 0: transition into 4 ⇒ one
`Delete(after.id)`; transition out of 4 ⇒ one Upsert built from `after`;
both ≠ 4 ⇒ one Upsert built from `after` regardless of which fields
changed; both = 4 ⇒ no index call.  (Stated for snapshots whose `after`
carries the `id` and `releasename` columns, which the record build reads
directly.) -/
theorem claim_C1 (before_values after_values : Row) (i rn : PyVal)
    (hi : rowGet? after_values "id" = some i)
    (hrn : rowGet? after_values "releasename" = some rn) :
    (((rowGet? before_values "status").getD (.int 0)).eqInt 4 = false →
      ((rowGet? after_values "status").getD (.int 0)).eqInt 4 = true →
      processUpdateRow before_values after_values =
        Except.ok (some (Mutation.del i))) ∧
    (((rowGet? before_values "status").getD (.int 0)).eqInt 4 = true →
      ((rowGet? after_values "status").getD (.int 0)).eqInt 4 = false →
      processUpdateRow before_values after_values =
        Except.ok (some (Mutation.replace (upsertParamsOf after_values i rn)))) ∧
    (((rowGet? before_values "status").getD (.int 0)).eqInt 4 = false →
      ((rowGet? after_values "status").getD (.int 0)).eqInt 4 = false →
      processUpdateRow before_values after_values =
        Except.ok (some (Mutation.replace (upsertParamsOf after_values i rn)))) ∧
    (((rowGet? before_values "status").getD (.int 0)).eqInt 4 = true →
      ((rowGet? after_values "status").getD (.int 0)).eqInt 4 = true →
      processUpdateRow before_values after_values = Except.ok Option.none) := by
  have hb := eqInt4_default_irrel (rowGet? before_values "status")
  have ha := eqInt4_default_irrel (rowGet? after_values "status")
  refine ⟨?_, ?_, ?_, ?_⟩ <;> intro h1 h2 <;>
    simp only [processUpdateRow, rowGetD, hb, ha, h1, h2, Bool.false_and,
      Bool.and_false, Bool.true_and, Bool.and_true, Bool.not_false,
      Bool.not_true, if_true, if_false, Bool.false_eq_true, if_neg,
      reduceIte]
  · rw [getItem_of_get? _ _ _ hi, except_bind_ok]
    simp [remove_release_from_sphinx]
  · exact upsert_path after_values i rn hi hrn
  · exact upsert_path after_values i rn hi hrn

/-- C2: for every Insert event on the monitored table: an id below the
replay-skip threshold produces no index store call; otherwise a status
of 4 (0 when the column is missing) produces no call; otherwise exactly
one Upsert of the record built from the row is issued (stated for rows
carrying the `releasename` column, which the record build reads
directly). -/
theorem claim_C2 (t : Int) (values : Row) (k : Int)
    (hi : rowGet? values "id" = some (.int k)) :
    (k < t → processWriteRow t values = Except.ok Option.none) ∧
    (¬ k < t → ((rowGet? values "status").getD (.int 0)).eqInt 4 = true →
      processWriteRow t values = Except.ok Option.none) ∧
    (∀ rn, ¬ k < t →
      ((rowGet? values "status").getD (.int 0)).eqInt 4 = false →
      rowGet? values "releasename" = some rn →
      processWriteRow t values =
        Except.ok (some (Mutation.replace (upsertParamsOf values (.int k) rn)))) := by
  refine ⟨?_, ?_, ?_⟩
  · intro hk
    simp [processWriteRow, getItem_of_get? _ _ _ hi, except_bind_ok,
      PyVal.ltInt, hk]
  · intro hk hs
    simp [processWriteRow, getItem_of_get? _ _ _ hi, except_bind_ok,
      PyVal.ltInt, hk, rowGetD, hs]
  · intro rn hk hs hrn
    exact processWriteRow_upsert t values k rn hi hk hs hrn

/-- C3: every Delete event issues `Delete(id)` unconditionally with the
id taken from the row snapshot, and the replay-skip threshold is never
applied to Delete or Update events: their translation does not depend on
the threshold at all, so ids below the threshold still produce their
mutation. -/
theorem claim_C3 :
    (∀ (values : Row) (i : PyVal), rowGet? values "id" = some i →
      processDeleteRow values = Except.ok (some (Mutation.del i))) ∧
    (∀ (t t' : Int) (tbl : String) (rows : List Row),
      eventRowResults t (.deleteRows tbl rows) =
        eventRowResults t' (.deleteRows tbl rows)) ∧
    (∀ (t t' : Int) (tbl : String) (prs : List (Row × Row)),
      eventRowResults t (.updateRows tbl prs) =
        eventRowResults t' (.updateRows tbl prs)) := by
  refine ⟨?_, ?_, ?_⟩
  · intro values i h
    simp [processDeleteRow, getItem_of_get? _ _ _ h, except_bind_ok,
      remove_release_from_sphinx]
  · intro t t' tbl rows; rfl
  · intro t t' tbl prs; rfl

/-- C3 witness: a Delete with id 5, far below the hard-coded threshold
14130526, still issues its mutation. -/
theorem claim_C3_witness :
    processDeleteRow [("id", PyVal.int 5)] =
      Except.ok (some (Mutation.del (PyVal.int 5))) :=
  claim_C3.1 [("id", PyVal.int 5)] (PyVal.int 5) rfl

/-- C1 witness: a concrete transition into status 4 issues exactly the
delete. -/
theorem claim_C1_witness :
    processUpdateRow [("id", PyVal.int 7), ("status", PyVal.int 0)]
      [("id", PyVal.int 7), ("releasename", PyVal.str "r"),
       ("status", PyVal.int 4)] =
      Except.ok (some (Mutation.del (PyVal.int 7))) :=
  (claim_C1 [("id", PyVal.int 7), ("status", PyVal.int 0)]
      [("id", PyVal.int 7), ("releasename", PyVal.str "r"),
       ("status", PyVal.int 4)]
      (PyVal.int 7) (PyVal.str "r") (by decide) (by decide)).1
    (by decide) (by decide)

/-- C2 witness: a concrete Insert above the threshold with status 0 is
upserted. -/
theorem claim_C2_witness :
    processWriteRow 100 [("id", PyVal.int 200), ("releasename", PyVal.str "r")] =
      Except.ok (some (Mutation.replace
        [PyVal.int 200, PyVal.str "r", PyVal.str "r", PyVal.int 0,
         PyVal.int 0, PyVal.int 0, PyVal.int 0, PyVal.float 0,
         PyVal.int 0])) :=
  (claim_C2 100 [("id", PyVal.int 200), ("releasename", PyVal.str "r")] 200
      (by decide)).2.2
    (PyVal.str "r") (by decide) (by decide) (by decide)

/-- C4 counterexample: an Insert event with `id = 100 >= 50 =
replaySkipThreshold` and `status != 4` (the column is missing, hence 0)
whose snapshot omits the `releasename` column.  The claim says the index
document with key 100 must exist after processing; the code instead
raises a `KeyError` while building the record, the per-row handler
swallows it, and no document is written. -/
theorem claim_C4_counterexample :
    processEvent 50 emptyStore
      (.writeRows "releases" [[("id", PyVal.int 100)]]) (PyVal.int 100) =
      Option.none := by decide

/-- C4 as amended: for any Insert event with `id = k >=
replaySkipThreshold` and `status != 4` whose snapshot also carries the
`releasename` column, after processing, the index document with key `k`
exists and its fields equal the event's values with documented defaults
(0 for missing/NULL integers, 0.0 for a missing/NULL size); an event
whose snapshot omits `releasename` is skipped and writes nothing. -/
theorem claim_C4 (t : Int) (s : Store) (values : Row) (k : Int)
    (rn : PyVal) (hi : rowGet? values "id" = some (.int k)) (hk : ¬ k < t)
    (hs : ((rowGet? values "status").getD (.int 0)).eqInt 4 = false)
    (hrn : rowGet? values "releasename" = some rn) :
    processEvent t s (.writeRows "releases" [values]) (.int k) =
      some (upsertParamsOf values (.int k) rn) := by
  simp [processEvent, eventRowResults, BinlogEvent.table,
    processWriteRow_upsert t values k rn hi hk hs hrn, processRowStep,
    applyMutation, upsertParamsOf]

/-- C4 witness: a concrete Insert above the threshold whose snapshot
omits the optional integer columns; the written document carries the
defaults. -/
theorem claim_C4_witness :
    processEvent 50 emptyStore
      (.writeRows "releases"
        [[("id", PyVal.int 100), ("releasename", PyVal.str "r")]])
      (PyVal.int 100) =
      some (upsertParamsOf
        [("id", PyVal.int 100), ("releasename", PyVal.str "r")]
        (PyVal.int 100) (PyVal.str "r")) :=
  claim_C4 50 emptyStore
    [("id", PyVal.int 100), ("releasename", PyVal.str "r")] 100
    (PyVal.str "r") (by decide) (by decide) (by decide) (by decide)

/-- C5: the Upsert operation issues a single replace-by-key mutation
whose written tuple is exactly, in order, `(id, name, name again,
groupId, sectionId, status, preTime, size, fileCount)` with `0`
substituted for missing/falsy integers and `0.0` for a missing/falsy
size; the tuple has 9 entries (the spec's prose labels it an "8-field"
tuple while enumerating these same 9 positions). -/
theorem claim_C5 (values : Row) (i rn : PyVal)
    (hi : rowGet? values "id" = some i)
    (hrn : rowGet? values "releasename" = some rn) :
    (buildReleaseData values >>= add_release_to_sphinx) =
      Except.ok (Mutation.replace
        [ i, rn, rn,
          pyOr (rowGetD values "groupid" (.int 0)) (.int 0),
          pyOr (rowGetD values "sectionid" (.int 0)) (.int 0),
          pyOr (rowGetD values "status" (.int 0)) (.int 0),
          pyOr (rowGetD values "pretime" (.int 0)) (.int 0),
          pyOr (rowGetD values "size" (.float 0)) (.float 0),
          pyOr (rowGetD values "files" (.int 0)) (.int 0) ]) ∧
    (upsertParamsOf values i rn).length = 9 := by
  constructor
  · rw [buildReleaseData_ok values i rn hi hrn, except_bind_ok,
      add_release_releaseDataDict]
    simp [upsertParamsOf]
  · rfl

/-- C5 witness: the tuple written for a snapshot with NULL `groupid` and
no `size`. -/
theorem claim_C5_witness :
    (buildReleaseData
        [("id", PyVal.int 3), ("releasename", PyVal.str "n"),
         ("groupid", PyVal.null)] >>= add_release_to_sphinx) =
      Except.ok (Mutation.replace
        [PyVal.int 3, PyVal.str "n", PyVal.str "n", PyVal.int 0,
         PyVal.int 0, PyVal.int 0, PyVal.int 0, PyVal.float 0,
         PyVal.int 0]) :=
  (claim_C5 [("id", PyVal.int 3), ("releasename", PyVal.str "n"),
      ("groupid", PyVal.null)]
    (PyVal.int 3) (PyVal.str "n") (by decide) (by decide)).1

/-- C6: with the index store modelled as a map from key to document,
both writer primitives are idempotent: replaying the same mutation
(replace-by-key or delete-by-key) leaves the same final store, deleting
always removes the key, and deleting an absent key is a no-op rather
than an error. -/
theorem claim_C6 :
    (∀ (s : Store) (m : Mutation),
      applyMutation (applyMutation s m) m = applyMutation s m) ∧
    (∀ (s : Store) (k : PyVal),
      applyMutation s (.del k) k = Option.none) ∧
    (∀ (s : Store) (k : PyVal), s k = Option.none →
      applyMutation s (.del k) = s) := by
  refine ⟨?_, ?_, ?_⟩
  · intro s m
    cases m with
    | replace ps =>
      funext x
      simp only [applyMutation]
      split_ifs <;> rfl
    | del key =>
      funext x
      simp only [applyMutation]
      split_ifs <;> rfl
  · intro s k
    simp [applyMutation]
  · intro s k h
    funext x
    simp only [applyMutation]
    split_ifs with hx
    · exact (hx ▸ h).symm
    · rfl

/-- C6 witness: deleting key 1 from the empty store leaves it
unchanged. -/
theorem claim_C6_witness :
    applyMutation emptyStore (.del (PyVal.int 1)) = emptyStore :=
  claim_C6.2.2 emptyStore (PyVal.int 1) rfl

/-- C7: failures are contained per event: an Index Writer execution
error is converted to a boolean `false` at the writer rather than
raised; a row whose translation errors leaves the store unchanged and
the loop continues with the remaining rows; and the stream loop always
proceeds to the next event — processing a sequence is processing the
head and then, unconditionally, the tail. -/
theorem claim_C7 :
    (∀ (msg : String), execute_sphinx_command (Except.error msg) = false) ∧
    (∀ (s : Store) (msg : String)
      (rest : List (Except String (Option Mutation))),
      List.foldl processRowStep s (Except.error msg :: rest) =
        List.foldl processRowStep s rest) ∧
    (∀ (t : Int) (s : Store) (e : BinlogEvent) (es : List BinlogEvent),
      processEvents t s (e :: es) =
        processEvents t (processEvent t s e) es) := by
  refine ⟨?_, ?_, ?_⟩
  · intro msg; rfl
  · intro s msg rest; rfl
  · intro t s e es; rfl

/-- C8: startup gating: a failed reachability probe aborts before the
consume loop; a reference-table load below its minimum (1000 for groups,
40 for sections) leaves the corresponding mapping empty and aborts; and
the consume loop is entered exactly when the probe succeeds and both
mappings are non-empty, equivalently when the probe succeeds and both
loads meet their minimums. -/
theorem claim_C8 (p : Bool) (gr sr : List (Int × String)) :
    ((startup false gr sr).enteredMain = false) ∧
    (gr.length < 1000 →
      (startup p gr sr).groups = [] ∧
      (startup p gr sr).enteredMain = false) ∧
    (sr.length < 40 →
      (startup p gr sr).sections = [] ∧
      (startup p gr sr).enteredMain = false) ∧
    ((startup p gr sr).enteredMain = true ↔
      p = true ∧ (startup p gr sr).groups ≠ [] ∧
        (startup p gr sr).sections ≠ []) ∧
    ((startup p gr sr).enteredMain = true ↔
      p = true ∧ ¬ gr.length < 1000 ∧ ¬ sr.length < 40) := by
  cases p with
  | false =>
    refine ⟨rfl, ?_, ?_, ?_, ?_⟩ <;> simp [startup]
  | true =>
    have hgr : gr.length < 1000 → fetch_all_groups gr = [] := by
      intro h; simp [fetch_all_groups, h]
    have hsr : sr.length < 40 → fetch_all_sections sr = [] := by
      intro h; simp [fetch_all_sections, h]
    refine ⟨rfl, ?_, ?_, ?_, ?_⟩
    · intro h
      rw [startup_true]
      simp [hgr h]
    · intro h
      rw [startup_true]
      simp [hsr h]
    · rw [startup_true]
      by_cases hg : fetch_all_groups gr = []
      · simp [hg]
      · by_cases hs : fetch_all_sections sr = []
        · simp [hs]
        · simp [ne_nil_isEmpty_false _ hg, ne_nil_isEmpty_false _ hs, hg, hs]
    · rw [startup_true]
      by_cases hg : gr.length < 1000
      · simp [hgr hg, hg]
      · by_cases hs : sr.length < 40
        · simp [hsr hs, hs]
        · simp [ne_nil_isEmpty_false _ (fetch_all_groups_ne_nil gr hg),
            ne_nil_isEmpty_false _ (fetch_all_sections_ne_nil sr hs), hg, hs]

/-- C8 witness: a probe success with an undersized groups table (1 row
< 1000) leaves the groups mapping empty and does not enter the consume
loop. -/
theorem claim_C8_witness :
    (startup true [((1 : Int), "g")] [((1 : Int), "s")]).groups = [] ∧
    (startup true [((1 : Int), "g")] [((1 : Int), "s")]).enteredMain =
      false :=
  (claim_C8 true [((1 : Int), "g")] [((1 : Int), "s")]).2.1 (by decide)

/-- C9: a row snapshot that carries the `status` column with a NULL
value is treated as not logically deleted: the status-4 discard/delete
branches do not fire, the record is upserted (the Insert path subject to
the replay-skip threshold), and the status field written to the index is
0 (`status or 0` maps NULL to 0). -/
theorem claim_C9 :
    (∀ (t : Int) (values : Row) (k : Int) (rn : PyVal),
      rowGet? values "id" = some (.int k) → ¬ k < t →
      rowGet? values "releasename" = some rn →
      rowGet? values "status" = some .null →
      processWriteRow t values =
        Except.ok (some (Mutation.replace
          [ .int k, rn, rn,
            pyOr (rowGetD values "groupid" (.int 0)) (.int 0),
            pyOr (rowGetD values "sectionid" (.int 0)) (.int 0),
            .int 0,
            pyOr (rowGetD values "pretime" (.int 0)) (.int 0),
            pyOr (rowGetD values "size" (.float 0)) (.float 0),
            pyOr (rowGetD values "files" (.int 0)) (.int 0) ]))) ∧
    (∀ (before_values after_values : Row) (i rn : PyVal),
      rowGet? after_values "id" = some i →
      rowGet? after_values "releasename" = some rn →
      rowGet? after_values "status" = some .null →
      processUpdateRow before_values after_values =
        Except.ok (some (Mutation.replace
          [ i, rn, rn,
            pyOr (rowGetD after_values "groupid" (.int 0)) (.int 0),
            pyOr (rowGetD after_values "sectionid" (.int 0)) (.int 0),
            .int 0,
            pyOr (rowGetD after_values "pretime" (.int 0)) (.int 0),
            pyOr (rowGetD after_values "size" (.float 0)) (.float 0),
            pyOr (rowGetD after_values "files" (.int 0)) (.int 0) ]))) := by
  constructor
  · intro t values k rn hi hk hrn hst
    have hs : ((rowGet? values "status").getD (.int 0)).eqInt 4 = false := by
      rw [hst]; rfl
    rw [processWriteRow_upsert t values k rn hi hk hs hrn]
    simp [upsertParamsOf, rowGetD, hst, pyOr, PyVal.truthy]
  · intro before_values after_values i rn hi hrn hst
    have hs : ((rowGet? after_values "status").getD (.int 0)).eqInt 4 =
        false := by rw [hst]; rfl
    rw [processUpdateRow_build before_values after_values hs,
      upsert_path after_values i rn hi hrn]
    simp [upsertParamsOf, rowGetD, hst, pyOr, PyVal.truthy]

/-- C9 witness: an Insert whose `status` column is present but NULL is
upserted with status 0. -/
theorem claim_C9_witness :
    processWriteRow 10
      [("id", PyVal.int 20), ("releasename", PyVal.str "r"),
       ("status", PyVal.null)] =
      Except.ok (some (Mutation.replace
        [PyVal.int 20, PyVal.str "r", PyVal.str "r", PyVal.int 0,
         PyVal.int 0, PyVal.int 0, PyVal.int 0, PyVal.float 0,
         PyVal.int 0])) :=
  claim_C9.1 10
    [("id", PyVal.int 20), ("releasename", PyVal.str "r"),
     ("status", PyVal.null)]
    20 (PyVal.str "r") (by decide) (by decide) (by decide) (by decide)

/-- C10: an Insert past the threshold and status gates (and likewise an
Update reaching an upsert branch) whose snapshot lacks the
`releasename` column issues no index mutation: the record build fails
with a `KeyError`, the per-row handler catches it, the store is left
unchanged, and processing continues with the next event. -/
theorem claim_C10 :
    (∀ (t : Int) (values : Row) (k : Int),
      rowGet? values "id" = some (.int k) → ¬ k < t →
      ((rowGet? values "status").getD (.int 0)).eqInt 4 = false →
      rowGet? values "releasename" = Option.none →
      processWriteRow t values = Except.error "KeyError: releasename" ∧
      ∀ (s : Store) (es : List BinlogEvent),
        processEvents t s (.writeRows "releases" [values] :: es) =
          processEvents t s es) ∧
    (∀ (before_values after_values : Row) (i : PyVal),
      rowGet? after_values "id" = some i →
      ((rowGet? after_values "status").getD (.int 0)).eqInt 4 = false →
      rowGet? after_values "releasename" = Option.none →
      processUpdateRow before_values after_values =
        Except.error "KeyError: releasename" ∧
      ∀ (t : Int) (s : Store) (es : List BinlogEvent),
        processEvents t s
            (.updateRows "releases" [(before_values, after_values)] :: es) =
          processEvents t s es) := by
  constructor
  · intro t values k hi hk hs hrn
    have herr : processWriteRow t values =
        Except.error "KeyError: releasename" :=
      (processWriteRow_build t values k hi hk hs).trans
        (upsert_path_no_name values (.int k) hi hrn)
    refine ⟨herr, ?_⟩
    intro s es
    simp [processEvents, processEvent, eventRowResults, BinlogEvent.table,
      herr, processRowStep]
  · intro before_values after_values i hi hs hrn
    have herr : processUpdateRow before_values after_values =
        Except.error "KeyError: releasename" :=
      (processUpdateRow_build before_values after_values hs).trans
        (upsert_path_no_name after_values i hi hrn)
    refine ⟨herr, ?_⟩
    intro t s es
    simp [processEvents, processEvent, eventRowResults, BinlogEvent.table,
      herr, processRowStep]

/-- C10 witness: a concrete Insert lacking `releasename` errors, writes
nothing, and the stream continues. -/
theorem claim_C10_witness :
    processWriteRow 50 [("id", PyVal.int 100)] =
      Except.error "KeyError: releasename" :=
  ((claim_C10.1 50 [("id", PyVal.int 100)] 100 (by decide) (by decide)
      (by decide) (by decide)).1)

end SphinxUpdater
